import Mathlib

/-!
# Verification of the hawser transfer-protocol client (`hawser/client.go`)

A shallow embedding of the transfer protocol engine: the data model
(requests, responses, headers, hypermedia links, diagnostic errors), the
pure helpers (`handleResponseError`, `saveCredentials`,
`validateMediaHeader`, the error-context builders) and the effectful
orchestration (`Download`, `Upload`, `callPost`, `callOptions`, `callPut`,
`callExternalPut`, `doRequest`, `request`, `setRequestHeaders`).

External collaborators (the HTTP executor `DoHTTP`, the local object
store, the credential helper, the JSON/MIME/base64 codecs, the endpoint
configuration) are modelled as oracle fields of an `Env` record, and every
sub-request the engine issues is recorded in an event trace, so that
claims about request sequencing ("exactly one PUT, then one POST") become
statements about the trace.

Strings are Lean `String`s; byte streams (response bodies, the framing
marker) are `List UInt8`; machine integers (`int64` sizes and content
lengths) are `Int`; HTTP status codes are `Nat`.
-/

set_option autoImplicit false

namespace Hawser

/-- `application/vnd.git-media`, the protocol's raw binary media type
(constant `gitMediaType` in the source). -/
def gitMediaType : String := "application/vnd.git-media"

/-- The metadata media type, `gitMediaType + "+json; charset=utf-8"`. -/
def gitMediaMetaType : String := gitMediaType ++ "+json; charset=utf-8"

/-- Modelled from the spec: the client identity string `UserAgent`
(defined outside `client.go`); its concrete value is irrelevant to every
claim. -/
def UserAgent : String := "hawser"

/-! ## Headers

Go's `http.Header` is a map from canonical header names to values;
`Header.Set` replaces any existing value.  We model it as an association
list with unique keys: `hset` replaces in place when the key is present
and appends otherwise, `hget` returns the value or `""`, `hhas` tests
presence.  Header-name canonicalisation is not modelled: keys are assumed
to be in canonical form already. -/

/-- Header collection: association list of name/value pairs. -/
abbrev Header := List (String × String)

/-- `http.Header.Set`: replace the value for a key, or append it. -/
def hset (h : Header) (k v : String) : Header :=
  if h.any (fun p => p.1 = k) then
    h.map (fun p => if p.1 = k then (k, v) else p)
  else
    h ++ [(k, v)]

/-- `http.Header.Get`: first value for a key, or `""`. -/
def hget (h : Header) (k : String) : String :=
  ((h.find? (fun p => p.1 = k)).map (fun p => p.2)).getD ""

/-- Presence test for a header key (`_, ok := req.Header[k]`). -/
def hhas (h : Header) (k : String) : Bool :=
  h.any (fun p => p.1 = k)

/-! ## Requests, responses, credentials, events -/

/-- An outgoing HTTP request (`http.Request`): method, URL, headers, an
optional in-memory body and the declared content length.  File-streaming
bodies are represented by `body = none` together with the
`contentLength` set to the file size. -/
structure HttpRequest where
  method : String
  url : String
  headers : Header
  body : Option String
  contentLength : Int
  deriving DecidableEq, Repr

/-- A fresh request as built by `http.NewRequest(method, url, nil)`. -/
def mkReq (method url : String) : HttpRequest :=
  { method := method, url := url, headers := [], body := none, contentLength := 0 }

/-- An HTTP response (`http.Response`): status code, status line, headers,
body bytes, declared content length, and the originating request
(`res.Request`). -/
structure HttpResponse where
  statusCode : Nat
  status : String
  headers : Header
  body : List UInt8
  contentLength : Int
  request : HttpRequest
  deriving DecidableEq, Repr

/-- Modelled from the spec: a credential set produced by the external
credential helper (`Creds` lives outside `client.go`); the engine only
reads its `username` and `password` entries. -/
structure Creds where
  username : String
  password : String
  deriving DecidableEq, Repr

/-- One observable side effect of the engine: a request handed to the
HTTP executor, or a verdict (`"approve"`/`"reject"`) handed to the
credential helper by `execCreds`. -/
inductive Event where
  | sent (req : HttpRequest)
  | cred (c : Creds) (action : String)
  deriving DecidableEq, Repr

/-- The sub-requests recorded in a trace, in order. -/
def sentRequests : List Event → List HttpRequest
  | [] => []
  | .sent r :: t => r :: sentRequests t
  | .cred _ _ :: t => sentRequests t

/-! ## Diagnostic errors -/

/-- Modelled from the spec: `WrappedError` (`DiagnosticError`), defined
outside `client.go`: a root cause, a message, a fatality flag (`Panic`)
that defaults to `true`, and an ordered context mapping with unique keys
where re-setting a key overwrites the prior value. -/
structure WrappedError where
  cause : String
  message : String
  panic : Bool
  context : List (String × String)
  deriving DecidableEq, Repr

/-- Modelled from the spec: `Errorf(err, format, ...)` wraps a root cause
in a fresh diagnostic error with the formatted message and `Panic`
defaulting to `true`. -/
def Errorf (cause message : String) : WrappedError :=
  { cause := cause, message := message, panic := true, context := [] }

/-- Modelled from the spec: `Error(err)` wraps a root cause using the
cause's own text as the message. -/
def ErrorW (cause : String) : WrappedError :=
  Errorf cause cause

/-- Modelled from the spec: `WrappedError.Set` records a context
key/value, overwriting the value if the key is already present. -/
def WrappedError.set (e : WrappedError) (k v : String) : WrappedError :=
  if e.context.any (fun p => p.1 = k) then
    { e with context := e.context.map (fun p => if p.1 = k then (k, v) else p) }
  else
    { e with context := e.context ++ [(k, v)] }

/-- Look up a recorded context value of a diagnostic error. -/
def ctxLookup (e : WrappedError) (k : String) : Option String :=
  ((e.context.find? (fun p => p.1 = k)).map (fun p => p.2))

/-- The root-cause text of an optional error (`err.Error()` when non-nil,
`""` for a nil error passed to `Errorf`). -/
def causeOf : Option WrappedError → String
  | none => ""
  | some w => w.message

/-- The JSON error body shape (`ClientError` in the source). -/
structure ClientError where
  message : String
  requestId : String
  deriving DecidableEq, Repr

/-! ## Credential settlement (`saveCredentials`, lines 410-423)

`execCreds` lives outside `client.go`; firing it is modelled as emitting
a `Event.cred` into the trace. -/

/-- `saveCredentials(creds, res)`: no-op on a nil credential; approve on
status `< 300`; reject on status `< 405`; otherwise nothing. -/
def saveCredentials (creds : Option Creds) (statusCode : Nat) : List Event :=
  match creds with
  | none => []
  | some c =>
    if statusCode < 300 then [Event.cred c "approve"]
    else if statusCode < 405 then [Event.cred c "reject"]
    else []

/-! ## Hypermedia links (`linkMeta`, `link`, lines 24-40) -/

/-- A hypermedia link: target URL and extra headers. -/
structure Link where
  href : String
  header : List (String × String)
  deriving DecidableEq, Repr

/-- `linkMeta`: the `_links` collection of a 202 negotiation body; the
`Links` map may be absent (`nil`). -/
structure LinkMeta where
  links : Option (List (String × Link))
  deriving DecidableEq, Repr

/-- `linkMeta.Rel(name)`: look a relation up, `none` when the map is
`nil` or the relation is missing. -/
def LinkMeta.rel (l : LinkMeta) (name : String) : Option Link :=
  match l.links with
  | none => none
  | some m => (m.find? (fun p => p.1 = name)).map (fun p => p.2)

/-! ## Response error classifier (`handleResponseError`, lines 379-408)

The JSON decoding of the error body (`encoding/json`, external) is passed
in as the `decode` argument: the decoder's verdict on `res.Body`. -/

/-- `handleResponseError(res)`: nil for status `< 400` or `= 405`;
otherwise decode the body into a `ClientError` (a failed decode yields a
decode error instead), build a status-specific message, and downgrade the
fatality flag for sub-500 statuses. -/
def handleResponseError (res : HttpResponse) (decode : Except String ClientError) :
    Option WrappedError :=
  if res.statusCode < 400 ∨ res.statusCode = 405 then
    none
  else
    let wErr :=
      match decode with
      | .error e => Errorf e "Error decoding JSON from response"
      | .ok apiErr =>
        let msg :=
          if res.statusCode = 401 ∨ res.statusCode = 403 then
            "Authorization error: " ++ res.request.url ++
              "\nCheck that you have proper access to the repository."
          else if res.statusCode = 404 then
            "Repository not found: " ++ res.request.url ++
              "\nCheck that it exists and that you have proper access to it."
          else
            "Invalid response: " ++ toString res.statusCode
        Errorf apiErr.message msg
    some (if res.statusCode < 500 then { wErr with panic := false } else wErr)

/-! ## Media header validation (`validateMediaHeader`, lines 318-347) -/

/-- The failure cases of `validateMediaHeader`, mirroring the four error
constructions in the source; the `Invalid header: ... expected, got ...`
message is represented structurally by `headerMismatch expected actual`. -/
inductive MediaErr where
  | invalidMediaType (contentType : String) (e : String)
  | missingHeader (contentType : String)
  | readError
  | headerMismatch (expected actual : List UInt8)
  deriving DecidableEq, Repr

/-- Rendering of a `MediaErr` as the source's `WrappedError` (byte strings
are rendered with list notation rather than as raw bytes). -/
def MediaErr.toWrapped : MediaErr → WrappedError
  | .invalidMediaType ct e => Errorf e ("Invalid Media Type: " ++ ct)
  | .missingHeader ct => ErrorW ("Missing Git Media header in " ++ ct)
  | .readError => Errorf "short read" "Error reading response body."
  | .headerMismatch expected actual =>
    ErrorW ("Invalid header: " ++ toString expected ++ " expected, got " ++ toString actual)

/-- The framing marker `"--" + boundary + "\n"` as bytes (45 is `-`,
10 is `\n`); the boundary is the byte sequence of the `header`
media-type parameter's value. -/
def fullHeader (boundary : List UInt8) : List UInt8 :=
  (45 : UInt8) :: (45 : UInt8) :: boundary ++ [(10 : UInt8)]

/-- `validateMediaHeader(contentType, reader)` given the verdict of
`mime.ParseMediaType` (external): for the protocol's binary media type, a
`header` parameter must name a boundary; exactly
`len("--" + boundary + "\n")` bytes are read (`io.ReadAtLeast`, a short
read is an error) and must equal the marker byte-for-byte; any other
media type succeeds with a zero header size. -/
def validateMediaHeader
    (parsed : Except String (String × List (String × List UInt8)))
    (contentType : String) (reader : List UInt8) :
    Bool × Nat × Option MediaErr :=
  match parsed with
  | .error e => (false, 0, some (.invalidMediaType contentType e))
  | .ok (mediaType, params) =>
    if mediaType = gitMediaType then
      match (params.find? (fun p => p.1 = "header")).map (fun p => p.2) with
      | none => (false, 0, some (.missingHeader contentType))
      | some givenHeader =>
        let fullGivenHeader := fullHeader givenHeader
        let headerSize := fullGivenHeader.length
        if reader.length < headerSize then
          (false, headerSize, some .readError)
        else
          let header := reader.take headerSize
          if header ≠ fullGivenHeader then
            (false, headerSize, some (.headerMismatch fullGivenHeader header))
          else
            (true, headerSize, none)
    else
      (true, 0, none)

/-! ## The environment of external collaborators -/

/-- `filepath.Base`: the last component of a slash-separated path, with
trailing slashes removed; `"."` for the empty path, `"/"` for a path of
slashes only. -/
def filepathBase (p : String) : String :=
  if p = "" then "."
  else
    let l := (p.data.reverse.dropWhile (fun c => c = '/')).reverse
    if l = [] then "/"
    else String.mk (l.reverse.takeWhile (fun c => c ≠ '/')).reverse

/-- The outcome of handing a request to the HTTP executor `DoHTTP`
(repo code outside `client.go`, specified as the external executor): a
response with a nil error, the distinguished `RedirectError` paired with
the redirect response, or a transport error.  A transport error is
modelled as paired with a response because `doRequest` and `callPut`
unconditionally dereference `res.StatusCode` on that path. -/
inductive TransportResult where
  | ok (res : HttpResponse)
  | redirect (res : HttpResponse)
  | err (msg : String) (res : HttpResponse)
  deriving DecidableEq, Repr

/-- The external collaborators, as oracles:
`endpoint`/`objectUrl` model the process-wide `Config`; `urlOk` models
`http.NewRequest`'s URL validation; `base64` the `encoding/base64` URL
encoder; `credsFor` the credential helper (`credentials(url)`);
`statFile` the local object store (`os.Open`/`Stat`, returning the byte
size, `none` on failure); `http` the executor `DoHTTP`;
`decodeClientError`/`decodeLinkMeta` the `encoding/json` decoders for the
two body shapes; `parseMediaType` is `mime.ParseMediaType` (base media
type and parameters, parameter values as byte sequences). -/
structure Env where
  endpoint : String
  objectUrl : String → String
  urlOk : String → Bool
  base64 : String → String
  credsFor : String → Except String Creds
  statFile : String → Option Int
  http : HttpRequest → TransportResult
  decodeClientError : List UInt8 → Except String ClientError
  decodeLinkMeta : List UInt8 → Except String LinkMeta
  parseMediaType : String → Except String (String × List (String × List UInt8))

/-! ## Request building (`setRequestHeaders`, `request`, lines 452-479) -/

/-- The `User-Agent` stamp at the top of `setRequestHeaders`. -/
def withUA (req : HttpRequest) : HttpRequest :=
  { req with headers := hset req.headers "User-Agent" UserAgent }

/-- `setRequestHeaders(req)`: stamp the `User-Agent`; if an
`Authorization` header is already present return a nil credential,
otherwise fetch a credential for the URL, set `Authorization: Basic
<base64(user:pass)>` and return it.  A credential-helper failure is the
error return. -/
def setRequestHeaders (env : Env) (req0 : HttpRequest) :
    Except String (HttpRequest × Option Creds) :=
  let req := withUA req0
  if hhas req.headers "Authorization" then
    .ok (req, none)
  else
    match env.credsFor req.url with
    | .error e => .error e
    | .ok c =>
      let auth := "Basic " ++ env.base64 (c.username ++ ":" ++ c.password)
      .ok ({ req with headers := hset req.headers "Authorization" auth }, some c)

/-- `request(method, oid)`: build a request against
`Config.ObjectUrl(oid)` and attach identification/authorization headers. -/
def request (env : Env) (method oid : String) :
    Except String (HttpRequest × Option Creds) :=
  let u := env.objectUrl oid
  if env.urlOk u then
    setRequestHeaders env (mkReq method u)
  else
    .error ("invalid url: " ++ u)

/-! ## Error-context builders (lines 425-450) -/

/-- The `hiddenHeaders` set: only `Authorization`. -/
def hiddenHeaders : List String := ["Authorization"]

/-- The loop body of `setErrorHeaderContext`: record one header key under
`<prefix>:<name>`, hiding the value of hidden headers. -/
def sehcStep (head : Header) (pfx : String) (acc : WrappedError) (kv : String × String) :
    WrappedError :=
  let contextKey := pfx ++ ":" ++ kv.1
  if kv.1 ∈ hiddenHeaders then
    acc.set contextKey "--"
  else
    acc.set contextKey (hget head kv.1)

/-- `setErrorHeaderContext(err, prefix, head)`: record every header under
`<prefix>:<name>`, replacing the value of hidden (`Authorization`)
headers with the placeholder `"--"` and recording every other header's
value verbatim (`head.Get`). -/
def setErrorHeaderContext (e : WrappedError) (pfx : String) (head : Header) :
    WrappedError :=
  head.foldl (sehcStep head pfx) e

/-- `setErrorRequestContext`: endpoint, `"<method> <url>"`, and the
request-side headers, which are recorded under the `Response` prefix. -/
def setErrorRequestContext (env : Env) (e : WrappedError) (req : HttpRequest) :
    WrappedError :=
  let e := e.set "Endpoint" env.endpoint
  let e := e.set "URL" (req.method ++ " " ++ req.url)
  setErrorHeaderContext e "Response" req.headers

/-- `setErrorResponseContext`: status line, the response-side headers
(recorded under the `Request` prefix), then the originating request's
context. -/
def setErrorResponseContext (env : Env) (e : WrappedError) (res : HttpResponse) :
    WrappedError :=
  let e := e.set "Status" res.status
  let e := setErrorHeaderContext e "Request" res.headers
  setErrorRequestContext env e res.request

/-! ## `doRequest` (lines 349-377) -/

/-- `doRequest(req, creds)`: send via the executor; `RedirectError` is
cleared; on a nil error the credential is settled and the response is
classified, and a classified error is enriched with response context; a
transport error paired with a 302-status response is swallowed (the
"hack for pre-release"), any other transport error is wrapped and
enriched. -/
def doRequest (env : Env) (req : HttpRequest) (creds : Option Creds) :
    (HttpResponse × Option WrappedError) × List Event :=
  match env.http req with
  | .ok res =>
    let ev := saveCredentials creds res.statusCode
    let wErr := handleResponseError res (env.decodeClientError res.body)
    ((res, wErr.map (fun w => setErrorResponseContext env w res)), Event.sent req :: ev)
  | .redirect res =>
    let ev := saveCredentials creds res.statusCode
    let wErr := handleResponseError res (env.decodeClientError res.body)
    ((res, wErr.map (fun w => setErrorResponseContext env w res)), Event.sent req :: ev)
  | .err m res =>
    if res.statusCode = 302 then
      ((res, none), [Event.sent req])
    else
      let w := Errorf m ("Error sending HTTP request to " ++ req.url)
      ((res, some (setErrorResponseContext env w res)), [Event.sent req])

/-! ## The transfer engine (`Download`, `Upload` and the `call*` helpers) -/

/-- The JSON body `{"oid":"<oid>", "size":<n>}` exactly as formatted by
the source (`fmt.Sprintf` with a space after the comma). -/
def jsonOidSize (oid : String) (size : Int) : String :=
  "\x7b\"oid\":\"" ++ oid ++ "\", \"size\":" ++ toString size ++ "\x7d"

/-- `callPost(filehash, filename)` (lines 273-316): POST the oid/size
negotiation body to the base object endpoint with `Accept` set to the
metadata media type; on a 202 decode the hypermedia link metadata
(a decode failure is an error carrying status 202); any other
unclassified status is returned with no links. -/
def callPost (env : Env) (filehash filename : String) :
    (Option LinkMeta × Nat × Option WrappedError) × List Event :=
  let oid := filepathBase filehash
  match request env "POST" "" with
  | .error e => ((none, 0, some (Errorf e ("Error attempting to POST " ++ filename))), [])
  | .ok (req, creds) =>
    match env.statFile filehash with
    | none => ((none, 0, some (Errorf "stat failed" ("Error attempting to POST " ++ filename))), [])
    | some fileSize =>
      let req := { req with
        body := some (jsonOidSize oid fileSize),
        headers := hset req.headers "Accept" gitMediaMetaType }
      let out := doRequest env req creds
      match out.1.2 with
      | some w => ((none, 0, some w), out.2)
      | none =>
        if out.1.1.statusCode = 202 then
          match env.decodeLinkMeta out.1.1.body with
          | .error e =>
            ((none, 202,
              some (Errorf e ("Error decoding JSON from " ++ req.method ++ " " ++ req.url))), out.2)
          | .ok lm => ((some lm, 202, none), out.2)
        else
          ((none, out.1.1.statusCode, none), out.2)

/-- `callOptions(filehash)` (lines 114-134): check the local object
exists, send an `OPTIONS` probe for the oid and return its status code;
a classified response error is returned with status 0. -/
def callOptions (env : Env) (filehash : String) :
    (Nat × Option WrappedError) × List Event :=
  let oid := filepathBase filehash
  match env.statFile filehash with
  | none => ((0, some (Errorf "stat failed" ("Internal object does not exist: " ++ filehash))), [])
  | some _ =>
    match request env "OPTIONS" oid with
    | .error e => ((0, some (Errorf e ("Unable to build OPTIONS request for " ++ oid))), [])
    | .ok (req, creds) =>
      let out := doRequest env req creds
      match out.1.2 with
      | some w => ((0, some w), out.2)
      | none => ((out.1.1.statusCode, none), out.2)

/-- `callPut(filehash, filename, cb)` (lines 136-181): stream the local
object to the legacy object endpoint via `PUT` with `Content-Type` set to
the binary media type and `Accept` set to the metadata media type, the
content length set to the file size; the result is `doRequest`'s
verdict. -/
def callPut (env : Env) (filehash filename : String) :
    Option WrappedError × List Event :=
  let filename := if filename = "" then filehash else filename
  let oid := filepathBase filehash
  match env.statFile filehash with
  | none => (some (Errorf "stat failed" ("Internal object does not exist: " ++ filehash)), [])
  | some fileSize =>
    match request env "PUT" oid with
    | .error e => (some (Errorf e ("Unable to build PUT request for " ++ oid)), [])
    | .ok (req, creds) =>
      let req := { req with
        headers := hset (hset req.headers "Content-Type" gitMediaType) "Accept" gitMediaMetaType,
        contentLength := fileSize }
      let out := doRequest env req creds
      (out.1.2, out.2)

/-- The `for h, v := range link.Header { req.Header.Set(h, v) }` loop. -/
def applyLinkHeaders (req : HttpRequest) (hs : List (String × String)) : HttpRequest :=
  hs.foldl (fun r kv => { r with headers := hset r.headers kv.1 kv.2 }) req

/-- `callExternalPut(filehash, filename, lm, cb)` (lines 183-271): require
hypermedia link metadata with an `upload` relation; PUT the file to the
relation's href with the link's extra headers applied before credential
attachment; the PUT uses `DoHTTP` directly, so only a transport error
(including `RedirectError`) aborts, and the credential is settled against
whatever status came back.  If a `verify` relation is present, POST the
oid/size JSON body to it the same way.  Neither response status is ever
inspected. -/
def callExternalPut (env : Env) (filehash filename : String) (lm : Option LinkMeta) :
    Option WrappedError × List Event :=
  match lm with
  | none => (some (Errorf "No hypermedia links provided" ("Error attempting to PUT " ++ filename)), [])
  | some lm =>
    match lm.rel "upload" with
    | none => (some (Errorf "No upload link provided" ("Error attempting to PUT " ++ filename)), [])
    | some link =>
      match env.statFile filehash with
      | none => (some (Errorf "stat failed" ("Error attempting to PUT " ++ filename)), [])
      | some fileSize =>
        if env.urlOk link.href then
          match setRequestHeaders env (applyLinkHeaders (mkReq "PUT" link.href) link.header) with
          | .error e => (some (Errorf e ("Error attempting to PUT " ++ filename)), [])
          | .ok (req1, creds) =>
            let req := { req1 with contentLength := fileSize }
            match env.http req with
            | .redirect _ =>
              (some (Errorf "RedirectError" ("Error attempting to PUT " ++ filename)), [Event.sent req])
            | .err m _ =>
              (some (Errorf m ("Error attempting to PUT " ++ filename)), [Event.sent req])
            | .ok res =>
              let ev0 := Event.sent req :: saveCredentials creds res.statusCode
              match lm.rel "verify" with
              | none => (none, ev0)
              | some cb =>
                let oid := filepathBase filehash
                if env.urlOk cb.href then
                  match setRequestHeaders env (applyLinkHeaders (mkReq "POST" cb.href) cb.header) with
                  | .error e => (some (Errorf e ("Error attempting to verify " ++ filename)), ev0)
                  | .ok (vreq1, verifyCreds) =>
                    let vreq := { vreq1 with body := some (jsonOidSize oid fileSize) }
                    match env.http vreq with
                    | .redirect _ =>
                      (some (Errorf "RedirectError" ("Error attempting to verify " ++ filename)),
                       ev0 ++ [Event.sent vreq])
                    | .err m _ =>
                      (some (Errorf m ("Error attempting to verify " ++ filename)),
                       ev0 ++ [Event.sent vreq])
                    | .ok vres =>
                      (none, ev0 ++ Event.sent vreq :: saveCredentials verifyCreds vres.statusCode)
                else
                  (some (Errorf "invalid url" ("Error attempting to verify " ++ filename)), ev0)
        else
          (some (Errorf "invalid url" ("Error attempting to PUT " ++ filename)), [])

/-- The body of `Upload` after negotiation (lines 80-111): a non-nil
negotiation error is returned immediately unless the status is 302;
200 means the object already exists; 405 and 302 take the legacy
OPTIONS-then-maybe-PUT path; 202 takes the hypermedia path; anything
else is the unexpected-status error. -/
def uploadAfterNegotiation (env : Env) (oidPath filename : String)
    (lm : Option LinkMeta) (status : Nat) (err : Option WrappedError) :
    Option WrappedError × List Event :=
  if err.isSome ∧ status ≠ 302 then
    (some (Errorf (causeOf err) "Error starting file upload."), [])
  else
    let oid := filepathBase oidPath
    if status = 200 then (none, [])
    else if status = 405 ∨ status = 302 then
      let oOut := callOptions env oidPath
      match oOut.1.2 with
      | some w => (some w, oOut.2)
      | none =>
        if oOut.1.1 ≠ 200 then
          let pOut := callPut env oidPath filename
          match pOut.1 with
          | some w =>
            (some (Errorf w.message
              ("Error uploading file " ++ filename ++ " (" ++ oid ++ ")")), oOut.2 ++ pOut.2)
          | none => (none, oOut.2 ++ pOut.2)
        else (none, oOut.2)
    else if status = 202 then
      let eOut := callExternalPut env oidPath filename lm
      match eOut.1 with
      | some w =>
        (some (Errorf w.message
          ("Error uploading file " ++ filename ++ " (" ++ oid ++ ")")), eOut.2)
      | none => (none, eOut.2)
    else
      (some (Errorf (causeOf err) ("Unexpected HTTP response: " ++ toString status)), [])

/-- `Upload(oidPath, filename, cb)` (lines 78-112): negotiate via
`callPost`, then branch on the status. -/
def Upload (env : Env) (oidPath filename : String) :
    Option WrappedError × List Event :=
  let nOut := callPost env oidPath filename
  let after := uploadAfterNegotiation env oidPath filename nOut.1.1 nOut.1.2.1 nOut.1.2.2
  (after.1, nOut.2 ++ after.2)

/-- The outcome of `Download`: a failure, or the body stream positioned
past the framing marker together with the payload length. -/
inductive DownloadResult where
  | failure (w : WrappedError)
  | ok (body : List UInt8) (len : Int)
  deriving DecidableEq, Repr

/-- `Download(oidPath)` (lines 48-76): GET the object with `Accept` set
to the binary media type; require a non-empty `Content-Type`; validate
and strip the framing marker; return the remaining stream and
`Content-Length − headerSize`. -/
def Download (env : Env) (oidPath : String) : DownloadResult × List Event :=
  let oid := filepathBase oidPath
  match request env "GET" oid with
  | .error e => (.failure (ErrorW e), [])
  | .ok (req, creds) =>
    let req := { req with headers := hset req.headers "Accept" gitMediaType }
    let out := doRequest env req creds
    match out.1.2 with
    | some w => (.failure w, out.2)
    | none =>
      let res := out.1.1
      let contentType := hget res.headers "Content-Type"
      if contentType = "" then
        (.failure (setErrorResponseContext env (ErrorW "Empty Content-Type") res), out.2)
      else
        match validateMediaHeader (env.parseMediaType contentType) contentType res.body with
        | (true, headerSize, _) =>
          (.ok (res.body.drop headerSize) (res.contentLength - (headerSize : Int)), out.2)
        | (false, _, m) =>
          (.failure (setErrorResponseContext env ((m.getD .readError).toWrapped) res), out.2)

/-! ## Shared concrete fixtures for witnesses -/

/-- A placeholder originating request for concrete responses. -/
def wReq : HttpRequest := mkReq "GET" "https://api/objects/oid1"

/-- A concrete response with a given status and no headers or body. -/
def wRes (s : Nat) : HttpResponse :=
  { statusCode := s, status := toString s, headers := [], body := [],
    contentLength := 0, request := wReq }

/-- The C7 witness response: status 200, binary media type with boundary
`abc123`, body exactly the 9 marker bytes, declared content length 109. -/
def res7 : HttpResponse :=
  { statusCode := 200, status := "200 OK"
    headers := [("Content-Type", "application/vnd.git-media; header=\"abc123\"")]
    body := [45, 45, 97, 98, 99, 49, 50, 51, 10]
    contentLength := 109, request := wReq }

/-- Concrete environment for the C7 witness: a GET whose response
declares `Content-Length: 109` and carries a 9-byte framing marker. -/
def env7 : Env :=
  { endpoint := "https://api"
    objectUrl := fun oid => "https://api/objects/" ++ oid
    urlOk := fun _ => true
    base64 := fun s => s
    credsFor := fun _ => .ok ⟨"u", "p"⟩
    statFile := fun _ => some 4
    http := fun _ => .ok res7
    decodeClientError := fun _ => .error "x"
    decodeLinkMeta := fun _ => .error "x"
    parseMediaType := fun _ => .ok (gitMediaType, [("header", [97, 98, 99, 49, 50, 51])]) }

/-- The GET request `request env7 "GET" "p"` builds. -/
def req7 : HttpRequest :=
  { method := "GET", url := "https://api/objects/p"
    headers := [("User-Agent", "hawser"), ("Authorization", "Basic u:p")]
    body := none, contentLength := 0 }

/-- C10 witness upload link: carries its own `Authorization` header. -/
def ul10 : Link := { href := "https://store/x", header := [("Authorization", "token1")] }

/-- C10 witness verify link: carries its own `Authorization` header. -/
def vl10 : Link := { href := "https://api/verify", header := [("Authorization", "token2")] }

/-- C10 witness link metadata: `upload` and `verify` relations. -/
def lm10 : LinkMeta := { links := some [("upload", ul10), ("verify", vl10)] }

/-- C1 witness link metadata: plain `upload` and `verify` relations. -/
def lm1 : LinkMeta :=
  { links := some [("upload", ⟨"https://store/x", []⟩), ("verify", ⟨"https://api/verify", []⟩)] }

/-- Concrete environment for the C1 witness: negotiation answers 202
with `lm1`; the storage PUT and the verify POST answer 200. -/
def env1 : Env :=
  { endpoint := "https://api"
    objectUrl := fun oid => "https://api/objects/" ++ oid
    urlOk := fun _ => true
    base64 := fun s => s
    credsFor := fun _ => .ok ⟨"u", "p"⟩
    statFile := fun _ => some 4
    http := fun q =>
      if q.url = "https://api/objects/" then .ok (wRes 202) else .ok (wRes 200)
    decodeClientError := fun _ => .error "x"
    decodeLinkMeta := fun _ => .ok lm1
    parseMediaType := fun _ => .error "x" }

/-- Concrete environment for the C5 counterexample: negotiation answers
405, the OPTIONS probe answers 500 with a decodable error body. -/
def env5 : Env :=
  { endpoint := "https://api"
    objectUrl := fun oid => "https://api/objects/" ++ oid
    urlOk := fun _ => true
    base64 := fun s => s
    credsFor := fun _ => .ok ⟨"u", "p"⟩
    statFile := fun _ => some 4
    http := fun q =>
      if q.url = "https://api/objects/" then .ok (wRes 405)
      else if q.method = "OPTIONS" then .ok (wRes 500)
      else .ok (wRes 200)
    decodeClientError := fun _ => .ok ⟨"boom", ""⟩
    decodeLinkMeta := fun _ => .error "x"
    parseMediaType := fun _ => .error "x" }

/-- Concrete environment for the C5 witness: negotiation answers 405,
the OPTIONS probe answers 301 (not 200, not a classified error), the
legacy PUT answers 200. -/
def env5b : Env :=
  { endpoint := "https://api"
    objectUrl := fun oid => "https://api/objects/" ++ oid
    urlOk := fun _ => true
    base64 := fun s => s
    credsFor := fun _ => .ok ⟨"u", "p"⟩
    statFile := fun _ => some 4
    http := fun q =>
      if q.url = "https://api/objects/" then .ok (wRes 405)
      else if q.method = "OPTIONS" then .ok (wRes 301)
      else .ok (wRes 200)
    decodeClientError := fun _ => .ok ⟨"boom", ""⟩
    decodeLinkMeta := fun _ => .error "x"
    parseMediaType := fun _ => .error "x" }

/-- Concrete environment for the C6 counterexample: negotiation answers
202 with `lm1`; the hypermedia PUT answers 500 (non-2xx) and the verify
POST answers 200. -/
def env6 : Env :=
  { endpoint := "https://api"
    objectUrl := fun oid => "https://api/objects/" ++ oid
    urlOk := fun _ => true
    base64 := fun s => s
    credsFor := fun _ => .ok ⟨"u", "p"⟩
    statFile := fun _ => some 4
    http := fun q =>
      if q.url = "https://store/x" then .ok (wRes 500)
      else if q.url = "https://api/verify" then .ok (wRes 200)
      else .ok (wRes 202)
    decodeClientError := fun _ => .ok ⟨"boom", ""⟩
    decodeLinkMeta := fun _ => .ok lm1
    parseMediaType := fun _ => .error "x" }

/-- Concrete environment for the C6 witness: negotiation answers 202
with `lm1`, and the hypermedia PUT fails at the transport layer. -/
def env6b : Env :=
  { endpoint := "https://api"
    objectUrl := fun oid => "https://api/objects/" ++ oid
    urlOk := fun _ => true
    base64 := fun s => s
    credsFor := fun _ => .ok ⟨"u", "p"⟩
    statFile := fun _ => some 4
    http := fun q =>
      if q.url = "https://store/x" then .err "connection refused" (wRes 0)
      else .ok (wRes 202)
    decodeClientError := fun _ => .ok ⟨"boom", ""⟩
    decodeLinkMeta := fun _ => .ok lm1
    parseMediaType := fun _ => .error "x" }

/-- Concrete environment for the C10 witness. -/
def env10 : Env :=
  { endpoint := "https://api"
    objectUrl := fun oid => "https://api/objects/" ++ oid
    urlOk := fun _ => true
    base64 := fun s => s
    credsFor := fun _ => .ok ⟨"u", "p"⟩
    statFile := fun _ => some 4
    http := fun _ => .ok (wRes 200)
    decodeClientError := fun _ => .error "x"
    decodeLinkMeta := fun _ => .ok lm10
    parseMediaType := fun _ => .error "x" }

/-! ## Reduction lemmas for the request pipeline -/

theorem handleResponseError_none (res : HttpResponse) (d : Except String ClientError)
    (h : res.statusCode < 400 ∨ res.statusCode = 405) :
    handleResponseError res d = none := by
  simp only [handleResponseError]
  rw [if_pos h]

theorem doRequest_ok {env : Env} {req : HttpRequest} {res : HttpResponse}
    (creds : Option Creds) (h : env.http req = .ok res) :
    doRequest env req creds =
      ((res, (handleResponseError res (env.decodeClientError res.body)).map
          (fun w => setErrorResponseContext env w res)),
       Event.sent req :: saveCredentials creds res.statusCode) := by
  simp only [doRequest, h]

theorem doRequest_ok_soft {env : Env} {req : HttpRequest} {res : HttpResponse}
    (creds : Option Creds) (h : env.http req = .ok res)
    (hs : res.statusCode < 400 ∨ res.statusCode = 405) :
    doRequest env req creds =
      ((res, none), Event.sent req :: saveCredentials creds res.statusCode) := by
  rw [doRequest_ok creds h, handleResponseError_none res _ hs]
  rfl

theorem sentRequests_append (a b : List Event) :
    sentRequests (a ++ b) = sentRequests a ++ sentRequests b := by
  induction a with
  | nil => rfl
  | cons e t ih => cases e <;> simp [sentRequests, ih]

theorem sentRequests_saveCredentials (c : Option Creds) (s : Nat) :
    sentRequests (saveCredentials c s) = [] := by
  cases c with
  | none => rfl
  | some c =>
    simp only [saveCredentials]
    by_cases h1 : s < 300
    · rw [if_pos h1]; rfl
    · rw [if_neg h1]
      by_cases h2 : s < 405
      · rw [if_pos h2]; rfl
      · rw [if_neg h2]; rfl

/-! ## C2: response error classification -/

/-- C2: for every HTTP response, `handleResponseError` returns no error
when the status is below 400 or equals 405, and a non-nil error for every
other status at or above 400; on a returned error the fatality flag is
false exactly when the status is below 500; a JSON-decode failure of the
error body yields the decode error (as root cause, with the decode
message) instead of a classified one. -/
theorem c2_handleResponseError_classification
    (res : HttpResponse) (decode : Except String ClientError) :
    ((res.statusCode < 400 ∨ res.statusCode = 405) →
      handleResponseError res decode = none)
    ∧ (400 ≤ res.statusCode → res.statusCode ≠ 405 →
      ∃ w, handleResponseError res decode = some w
        ∧ (w.panic = true ↔ 500 ≤ res.statusCode)
        ∧ (∀ e, decode = .error e →
            w.cause = e ∧ w.message = "Error decoding JSON from response")) := by
  constructor
  · intro h
    simp only [handleResponseError]
    rw [if_pos h]
  · intro h1 h2
    have hn : ¬ (res.statusCode < 400 ∨ res.statusCode = 405) := by
      rintro (h | h) <;> omega
    simp only [handleResponseError]
    rw [if_neg hn]
    by_cases h5 : res.statusCode < 500
    · refine ⟨_, rfl, ?_, ?_⟩
      · rw [if_pos h5]
        exact ⟨fun hh => absurd hh Bool.false_ne_true, fun hh => absurd hh (by omega)⟩
      · intro e he
        subst he
        rw [if_pos h5]
        exact ⟨rfl, rfl⟩
    · refine ⟨_, rfl, ?_, ?_⟩
      · rw [if_neg h5]
        cases decode <;> exact ⟨fun _ => by omega, fun _ => rfl⟩
      · intro e he
        subst he
        rw [if_neg h5]
        exact ⟨rfl, rfl⟩

/-- Witness for C2: status 500 with an undecodable body is classified as
a fatal decode error. -/
theorem c2_witness :
    (400 ≤ (wRes 500).statusCode ∧ (wRes 500).statusCode ≠ 405)
    ∧ ∃ w, handleResponseError (wRes 500) (.error "bad json") = some w
      ∧ (w.panic = true ↔ 500 ≤ (wRes 500).statusCode)
      ∧ (∀ e, (Except.error "bad json" : Except String ClientError) = .error e →
          w.cause = e ∧ w.message = "Error decoding JSON from response") :=
  ⟨by decide,
   (c2_handleResponseError_classification (wRes 500) (.error "bad json")).2
     (by decide) (by decide)⟩

/-! ## C4: credential settlement -/

/-- C4: `saveCredentials` is a no-op with no credential attached; with a
credential, a status below 300 yields exactly one approve verdict and no
reject, a status from 300 through 404 exactly one reject verdict and no
approve, and a status of 405 or above yields neither. -/
theorem c4_saveCredentials_settlement (creds : Option Creds) (status : Nat) :
    (creds = none → saveCredentials creds status = [])
    ∧ (∀ c, creds = some c →
        ((status < 300 → saveCredentials creds status = [Event.cred c "approve"])
        ∧ (300 ≤ status → status < 405 → saveCredentials creds status = [Event.cred c "reject"])
        ∧ (405 ≤ status → saveCredentials creds status = []))) := by
  constructor
  · intro h; subst h; rfl
  · intro c h
    subst h
    refine ⟨?_, ?_, ?_⟩
    · intro h1
      simp only [saveCredentials]
      rw [if_pos h1]
    · intro h1 h2
      simp only [saveCredentials]
      rw [if_neg (by omega), if_pos h2]
    · intro h1
      simp only [saveCredentials]
      rw [if_neg (by omega), if_neg (by omega)]

/-- Witness for C4: a 200 response approves the attached credential
exactly once. -/
theorem c4_witness :
    saveCredentials (some ⟨"u", "p"⟩) 200 = [Event.cred ⟨"u", "p"⟩ "approve"] :=
  (((c4_saveCredentials_settlement (some ⟨"u", "p"⟩) 200).2 ⟨"u", "p"⟩ rfl).1) (by decide)

/-! ## C3: media header validation -/

/-- C3: when the parsed base media type is the protocol's binary media
type, validation fails if the `header` parameter is missing; otherwise
the expected marker is `"--" + boundary + "\n"`, exactly that many bytes
are read from the body, a short read is an error, a byte-for-byte
mismatch is an error naming both the expected and the actual bytes, and
on success the returned header byte size equals the marker length. -/
theorem c3_validateMediaHeader
    (contentType : String) (reader : List UInt8)
    (params : List (String × List UInt8)) :
    ((params.find? (fun p => p.1 = "header")) = none →
      validateMediaHeader (.ok (gitMediaType, params)) contentType reader
        = (false, 0, some (.missingHeader contentType)))
    ∧ (∀ b, (params.find? (fun p => p.1 = "header")).map (fun p => p.2) = some b →
        ((reader.length < (fullHeader b).length →
          validateMediaHeader (.ok (gitMediaType, params)) contentType reader
            = (false, (fullHeader b).length, some .readError))
        ∧ (¬ reader.length < (fullHeader b).length →
            reader.take (fullHeader b).length ≠ fullHeader b →
          validateMediaHeader (.ok (gitMediaType, params)) contentType reader
            = (false, (fullHeader b).length,
               some (.headerMismatch (fullHeader b) (reader.take (fullHeader b).length))))
        ∧ (reader.take (fullHeader b).length = fullHeader b →
          validateMediaHeader (.ok (gitMediaType, params)) contentType reader
            = (true, (fullHeader b).length, none)))) := by
  have hred : validateMediaHeader (.ok (gitMediaType, params)) contentType reader =
      match (params.find? (fun p => p.1 = "header")).map (fun p => p.2) with
      | none => (false, 0, some (.missingHeader contentType))
      | some b =>
        if reader.length < (fullHeader b).length then
          (false, (fullHeader b).length, some .readError)
        else if reader.take (fullHeader b).length ≠ fullHeader b then
          (false, (fullHeader b).length,
           some (.headerMismatch (fullHeader b) (reader.take (fullHeader b).length)))
        else
          (true, (fullHeader b).length, none) := rfl
  constructor
  · intro h
    rw [hred, h]
    rfl
  · intro b hb
    refine ⟨?_, ?_, ?_⟩
    · intro hshort
      rw [hred, hb]
      exact if_pos hshort
    · intro hlong hne
      rw [hred, hb]
      exact (if_neg hlong).trans (if_pos hne)
    · intro htake
      have hlen : (reader.take (fullHeader b).length).length
          = min (fullHeader b).length reader.length := List.length_take _ _
      rw [htake] at hlen
      have hge : ¬ reader.length < (fullHeader b).length := by
        rw [Nat.min_def] at hlen
        by_cases hc : (fullHeader b).length ≤ reader.length
        · omega
        · rw [if_neg hc] at hlen; omega
      rw [hred, hb]
      exact (if_neg hge).trans (if_neg (fun hne => hne htake))

/-- Witness for C3: boundary `abc123` (bytes `97 98 99 49 50 51`), a body
whose first 9 bytes are exactly `--abc123\n`: validation succeeds with a
header byte size of 9. -/
theorem c3_witness :
    (([45, 45, 97, 98, 99, 49, 50, 51, 10, 7, 7] : List UInt8).take
        (fullHeader [97, 98, 99, 49, 50, 51]).length = fullHeader [97, 98, 99, 49, 50, 51])
    ∧ validateMediaHeader
        (.ok (gitMediaType, [("header", [97, 98, 99, 49, 50, 51])]))
        "application/vnd.git-media; header=\"abc123\""
        [45, 45, 97, 98, 99, 49, 50, 51, 10, 7, 7]
      = (true, 9, none) :=
  ⟨by decide,
   ((c3_validateMediaHeader "application/vnd.git-media; header=\"abc123\""
      [45, 45, 97, 98, 99, 49, 50, 51, 10, 7, 7]
      [("header", [97, 98, 99, 49, 50, 51])]).2
     [97, 98, 99, 49, 50, 51] (by decide)).2.2 (by decide)⟩

/-! ## C7: download payload length -/

/-- C7: for every successful download, the returned payload length equals
the response's declared content length minus the framing-header byte size
reported by media validation, and the returned stream is positioned past
the marker. -/
theorem c7_download_length (env : Env) (oidPath : String)
    (req : HttpRequest) (creds : Option Creds) (res : HttpResponse) (k : Nat)
    (hreq : request env "GET" (filepathBase oidPath) = .ok (req, creds))
    (hhttp : env.http { req with headers := hset req.headers "Accept" gitMediaType } = .ok res)
    (hsoft : res.statusCode < 400 ∨ res.statusCode = 405)
    (hct : hget res.headers "Content-Type" ≠ "")
    (hval : validateMediaHeader (env.parseMediaType (hget res.headers "Content-Type"))
        (hget res.headers "Content-Type") res.body = (true, k, none)) :
    (Download env oidPath).1 = .ok (res.body.drop k) (res.contentLength - (k : Int)) := by
  simp only [Download, hreq]
  rw [doRequest_ok_soft creds hhttp hsoft]
  simp only []
  rw [if_neg hct, hval]

/-- Witness for C7: content length 109 with a 9-byte marker yields a
payload length of exactly 100. -/
theorem c7_witness : (Download env7 "p").1 = DownloadResult.ok [] 100 := by
  have h := c7_download_length env7 "p" req7 (some ⟨"u", "p"⟩) res7 9
    rfl rfl (Or.inl (by decide)) (by decide) (by decide)
  rw [h]
  decide

/-! ## C8: error-context header recording -/

theorem strAppend_cancel {a b c : String} (h : a ++ b = a ++ c) : b = c := by
  have hd := congrArg String.data h
  rw [String.data_append, String.data_append] at hd
  exact String.ext (List.append_cancel_left hd)

theorem find?_of_nodup_mem {h : Header} {k v : String}
    (hu : (h.map Prod.fst).Nodup) (hm : (k, v) ∈ h) :
    h.find? (fun p => p.1 = k) = some (k, v) := by
  induction h with
  | nil => cases hm
  | cons p t ih =>
    rcases List.mem_cons.1 hm with h1 | h1
    · subst h1
      simp [List.find?]
    · have hu' : (p.1 :: t.map Prod.fst).Nodup := by simpa using hu
      have hnd := List.nodup_cons.1 hu'
      have hne : ¬ (p.1 = k) := by
        intro he
        exact hnd.1 (he ▸ List.mem_map_of_mem Prod.fst h1)
      simp only [List.find?, hne, decide_eq_true_eq, decide_eq_false hne]
      exact ih hnd.2 h1

theorem hget_of_nodup_mem {h : Header} {k v : String}
    (hu : (h.map Prod.fst).Nodup) (hm : (k, v) ∈ h) :
    hget h k = v := by
  simp [hget, find?_of_nodup_mem hu hm]

theorem find?_map_replace (l : List (String × String)) (k v : String)
    (h : l.any (fun p => p.1 = k) = true) :
    (l.map (fun p => if p.1 = k then (k, v) else p)).find? (fun p => p.1 = k)
      = some (k, v) := by
  induction l with
  | nil => cases h
  | cons p t ih =>
    by_cases hp : p.1 = k
    · simp [List.find?, hp]
    · have ht : t.any (fun p => p.1 = k) = true := by
        simpa [List.any_cons, hp] using h
      simp only [List.map_cons, List.find?, if_neg hp, decide_eq_false hp]
      exact ih ht

theorem find?_map_replace_other (l : List (String × String)) (k v k' : String)
    (hne : k' ≠ k) :
    (l.map (fun p => if p.1 = k then (k, v) else p)).find? (fun p => p.1 = k')
      = l.find? (fun p => p.1 = k') := by
  induction l with
  | nil => rfl
  | cons p t ih =>
    by_cases hp : p.1 = k
    · have h1 : ¬ (k = k') := fun he => hne he.symm
      have h2 : ¬ (p.1 = k') := by rw [hp]; exact h1
      simp only [List.map_cons, List.find?, if_pos hp,
        decide_eq_false h1, decide_eq_false h2]
      exact ih
    · simp only [List.map_cons, List.find?, if_neg hp]
      cases hd : decide (p.1 = k') <;> simp [hd, ih]

theorem find?_none_of_any_false (l : List (String × String)) (k : String)
    (h : l.any (fun p => p.1 = k) = false) :
    l.find? (fun p => p.1 = k) = none := by
  induction l with
  | nil => rfl
  | cons p t ih =>
    have hp : ¬ (p.1 = k) := by
      intro he
      simp [List.any_cons, he] at h
    have ht : t.any (fun p => p.1 = k) = false := by
      simpa [List.any_cons, hp] using h
    simp only [List.find?, decide_eq_false hp]
    exact ih ht

theorem ctxLookup_set_self (e : WrappedError) (k v : String) :
    ctxLookup (e.set k v) k = some v := by
  simp only [WrappedError.set, ctxLookup]
  by_cases h : e.context.any (fun p => p.1 = k)
  · rw [if_pos h]
    simp [find?_map_replace _ _ _ h]
  · rw [if_neg h]
    simp only [List.find?_append,
      find?_none_of_any_false _ _ (Bool.eq_false_iff.2 h)]
    simp [List.find?]

theorem ctxLookup_set_other (e : WrappedError) (k v k' : String) (h : k' ≠ k) :
    ctxLookup (e.set k v) k' = ctxLookup e k' := by
  simp only [WrappedError.set, ctxLookup]
  by_cases ha : e.context.any (fun p => p.1 = k)
  · rw [if_pos ha]
    rw [find?_map_replace_other _ _ _ _ h]
  · rw [if_neg ha]
    rw [List.find?_append]
    have : List.find? (fun p => p.1 = k') [(k, v)] = none := by
      simp [List.find?, decide_eq_false (fun he : k = k' => h he.symm)]
    rw [this]
    cases List.find? (fun p => p.1 = k') e.context <;> rfl

theorem sehc_skip (head : Header) (pfx : String) (l : List (String × String))
    (key : String) (hnm : ∀ kv ∈ l, pfx ++ ":" ++ kv.1 ≠ key) (e : WrappedError) :
    ctxLookup (l.foldl (sehcStep head pfx) e) key = ctxLookup e key := by
  induction l generalizing e with
  | nil => rfl
  | cons kv t ih =>
    rw [List.foldl_cons, ih (fun x hx => hnm x (List.mem_cons_of_mem _ hx))]
    simp only [sehcStep]
    by_cases hh : kv.1 ∈ hiddenHeaders
    · rw [if_pos hh]
      exact ctxLookup_set_other _ _ _ _ (fun he => hnm kv (List.mem_cons_self _ _) he.symm)
    · rw [if_neg hh]
      exact ctxLookup_set_other _ _ _ _ (fun he => hnm kv (List.mem_cons_self _ _) he.symm)

theorem sehc_mem (head : Header) (pfx k v : String)
    (hu : (head.map Prod.fst).Nodup) (hm : (k, v) ∈ head) :
    ∀ (l : List (String × String)), l.Sublist head → (k, v) ∈ l → ∀ e,
      ctxLookup (l.foldl (sehcStep head pfx) e) (pfx ++ ":" ++ k)
        = some (if k = "Authorization" then "--" else v) := by
  intro l
  induction l with
  | nil => intro _ hm'; cases hm'
  | cons kv t ih =>
    intro hsub hm' e
    rcases List.mem_cons.1 hm' with h1 | h1
    · subst h1
      have hknot : ∀ x ∈ t, x.1 ≠ k := by
        intro x hx he
        have hlu : ((k, v) :: t).map Prod.fst |>.Nodup :=
          (List.Sublist.map Prod.fst hsub).nodup hu
        have hlu' : (k :: t.map Prod.fst).Nodup := by simpa using hlu
        have hni := (List.nodup_cons.1 hlu').1
        have hx1 : x.1 ∈ t.map Prod.fst := List.mem_map_of_mem Prod.fst hx
        rw [he] at hx1
        exact hni hx1
      rw [List.foldl_cons,
        sehc_skip head pfx t _ (fun x hx he => hknot x hx (strAppend_cancel he))]
      simp only [sehcStep]
      by_cases hh : k ∈ hiddenHeaders
      · rw [if_pos hh, if_pos (by simpa [hiddenHeaders] using hh)]
        exact ctxLookup_set_self _ _ _
      · rw [if_neg hh, if_neg (by simpa [hiddenHeaders] using hh),
          hget_of_nodup_mem hu hm]
        exact ctxLookup_set_self _ _ _
    · exact ih (List.sublist_of_cons_sublist hsub) h1 _

/-- C8: recording a header collection into an error's context replaces
the `Authorization` value with the fixed placeholder `"--"`, records
every other header verbatim, and prefixes each recorded key with a
constant determined by the side the headers came from: request-side
headers are recorded under the `Response` prefix and response-side
headers under the `Request` prefix. -/
theorem c8_error_header_context :
    (∀ (e : WrappedError) (pfx : String) (head : Header) (k v : String),
      (head.map Prod.fst).Nodup → (k, v) ∈ head →
      ctxLookup (setErrorHeaderContext e pfx head) (pfx ++ ":" ++ k)
        = some (if k = "Authorization" then "--" else v))
    ∧ (∀ (env : Env) (e : WrappedError) (req : HttpRequest),
      setErrorRequestContext env e req =
        setErrorHeaderContext
          ((e.set "Endpoint" env.endpoint).set "URL" (req.method ++ " " ++ req.url))
          "Response" req.headers)
    ∧ (∀ (env : Env) (e : WrappedError) (res : HttpResponse),
      setErrorResponseContext env e res =
        setErrorRequestContext env
          (setErrorHeaderContext (e.set "Status" res.status) "Request" res.headers)
          res.request) := by
  refine ⟨?_, fun _ _ _ => rfl, fun _ _ _ => rfl⟩
  intro e pfx head k v hu hm
  exact sehc_mem head pfx k v hu hm head (List.Sublist.refl _) hm e

/-- Witness for C8: a two-header collection with an `Authorization`
entry: the credential value is replaced by `--`, the other header is
recorded verbatim, both under the given prefix. -/
theorem c8_witness :
    ((([("Authorization", "secret"), ("Accept", "a/b")] : Header).map Prod.fst).Nodup
      ∧ ("Authorization", "secret") ∈ ([("Authorization", "secret"), ("Accept", "a/b")] : Header))
    ∧ ctxLookup
        (setErrorHeaderContext (Errorf "c" "m") "Request"
          [("Authorization", "secret"), ("Accept", "a/b")])
        ("Request" ++ ":" ++ "Authorization") = some "--" :=
  ⟨⟨by decide, by decide⟩, by
    have h := c8_error_header_context.1 (Errorf "c" "m") "Request"
      [("Authorization", "secret"), ("Accept", "a/b")] "Authorization" "secret"
      (by decide) (by decide)
    rw [h]
    rfl⟩

/-! ## C9: the negotiation-error guard -/

/-- C9: a non-nil negotiation error paired with status 302 is discarded —
the upload proceeds into the legacy fallback path exactly as if
negotiation had returned 302 with no error; for every other status a
non-nil negotiation error makes the upload return immediately with the
wrapped "Error starting file upload." error and no further request.
(By definition, `Upload` is `callPost` followed by
`uploadAfterNegotiation` on its result, restated as the third
conjunct.) -/
theorem c9_negotiation_error_guard :
    (∀ (env : Env) (oidPath filename : String) (lm : Option LinkMeta) (w : WrappedError),
      uploadAfterNegotiation env oidPath filename lm 302 (some w)
        = uploadAfterNegotiation env oidPath filename lm 302 none)
    ∧ (∀ (env : Env) (oidPath filename : String) (lm : Option LinkMeta)
        (status : Nat) (w : WrappedError), status ≠ 302 →
      uploadAfterNegotiation env oidPath filename lm status (some w)
        = (some (Errorf w.message "Error starting file upload."), []))
    ∧ (∀ (env : Env) (oidPath filename : String),
      Upload env oidPath filename =
        ((uploadAfterNegotiation env oidPath filename
            (callPost env oidPath filename).1.1
            (callPost env oidPath filename).1.2.1
            (callPost env oidPath filename).1.2.2).1,
         (callPost env oidPath filename).2 ++
          (uploadAfterNegotiation env oidPath filename
            (callPost env oidPath filename).1.1
            (callPost env oidPath filename).1.2.1
            (callPost env oidPath filename).1.2.2).2)) := by
  refine ⟨?_, ?_, fun _ _ _ => rfl⟩
  · intro env oidPath filename lm w
    simp [uploadAfterNegotiation]
  · intro env oidPath filename lm status w h
    simp only [uploadAfterNegotiation]
    rw [if_pos ⟨rfl, h⟩]
    rfl

/-- Witness for C9: status 500 with a negotiation error returns the
wrapped error immediately. -/
theorem c9_witness :
    (500 : Nat) ≠ 302
    ∧ uploadAfterNegotiation env7 "p" "f" none 500 (some (Errorf "x" "y"))
        = (some (Errorf "y" "Error starting file upload."), []) :=
  ⟨by decide,
   c9_negotiation_error_guard.2.1 env7 "p" "f" none 500 (Errorf "x" "y") (by decide)⟩

/-! ## C10: link-supplied Authorization suppresses the credential helper -/

theorem hhas_hset_self (h : Header) (k v : String) : hhas (hset h k v) k = true := by
  unfold hhas hset
  by_cases ha : h.any (fun p => p.1 = k)
  · rw [if_pos ha]
    rcases List.any_eq_true.1 ha with ⟨p, hp, hpk⟩
    exact List.any_eq_true.2
      ⟨(k, v), List.mem_map.2 ⟨p, hp, if_pos (of_decide_eq_true hpk)⟩, by simp⟩
  · rw [if_neg ha]
    rw [List.any_append]
    simp

theorem hhas_hset_of (h : Header) (k v k' : String) (hk : hhas h k' = true) :
    hhas (hset h k v) k' = true := by
  unfold hhas hset
  unfold hhas at hk
  by_cases ha : h.any (fun p => p.1 = k)
  · rw [if_pos ha]
    rcases List.any_eq_true.1 hk with ⟨p, hp, hpk⟩
    have hpk' := of_decide_eq_true hpk
    by_cases hpk2 : p.1 = k
    · refine List.any_eq_true.2
        ⟨(k, v), List.mem_map.2 ⟨p, hp, if_pos hpk2⟩, ?_⟩
      have hkk : k = k' := hpk2 ▸ hpk'
      exact decide_eq_true hkk
    · exact List.any_eq_true.2 ⟨p, List.mem_map.2 ⟨p, hp, if_neg hpk2⟩, hpk⟩
  · rw [if_neg ha]
    rw [List.any_append, hk]
    rfl

theorem hhas_applyLinkHeaders_of (hs : List (String × String)) (k : String) :
    ∀ (r : HttpRequest), hhas r.headers k = true →
      hhas (applyLinkHeaders r hs).headers k = true := by
  induction hs with
  | nil => intro r h; exact h
  | cons kv t ih =>
    intro r h
    exact ih _ (hhas_hset_of _ _ _ _ h)

theorem hhas_applyLinkHeaders (hs : List (String × String)) (k a : String) :
    ∀ (r : HttpRequest), (k, a) ∈ hs →
      hhas (applyLinkHeaders r hs).headers k = true := by
  induction hs with
  | nil => intro r hm; cases hm
  | cons kv t ih =>
    intro r hm
    rcases List.mem_cons.1 hm with h1 | h1
    · subst h1
      exact hhas_applyLinkHeaders_of t k _ (hhas_hset_self _ _ _)
    · exact ih _ h1

/-- If the request already carries an `Authorization` header, header
attachment returns a nil credential without consulting the helper. -/
theorem setRequestHeaders_auth (env : Env) (r : HttpRequest)
    (h : hhas r.headers "Authorization" = true) :
    setRequestHeaders env r = .ok (withUA r, none) := by
  simp only [setRequestHeaders]
  have hw : hhas (withUA r).headers "Authorization" = true :=
    hhas_hset_of _ _ _ _ h
  rw [if_pos hw]

/-- C10: in the hypermedia upload and verify sub-requests the link's
extra headers are applied before credential attachment; when both link
header maps contain an `Authorization` entry, no credential is attached
to either request, the trace holds exactly the PUT and the verify POST
with no approve/reject verdict at all, and the outcome is independent of
the credential helper. -/
theorem c10_link_authorization_suppresses_credentials
    (env : Env) (fh fn : String) (lm : LinkMeta) (ul vl : Link)
    (a b : String) (sz : Int) (res1 res2 : HttpResponse)
    (hu : lm.rel "upload" = some ul)
    (ha : ("Authorization", a) ∈ ul.header)
    (hv : lm.rel "verify" = some vl)
    (hb : ("Authorization", b) ∈ vl.header)
    (hst : env.statFile fh = some sz)
    (hu1 : env.urlOk ul.href = true)
    (hv1 : env.urlOk vl.href = true)
    (hh1 : env.http { withUA (applyLinkHeaders (mkReq "PUT" ul.href) ul.header) with
        contentLength := sz } = .ok res1)
    (hh2 : env.http { withUA (applyLinkHeaders (mkReq "POST" vl.href) vl.header) with
        body := some (jsonOidSize (filepathBase fh) sz) } = .ok res2) :
    callExternalPut env fh fn (some lm)
      = (none,
         [Event.sent { withUA (applyLinkHeaders (mkReq "PUT" ul.href) ul.header) with
            contentLength := sz },
          Event.sent { withUA (applyLinkHeaders (mkReq "POST" vl.href) vl.header) with
            body := some (jsonOidSize (filepathBase fh) sz) }])
    ∧ (∀ cf, callExternalPut { env with credsFor := cf } fh fn (some lm)
        = callExternalPut env fh fn (some lm)) := by
  have hsrh1 := setRequestHeaders_auth env (applyLinkHeaders (mkReq "PUT" ul.href) ul.header)
    (hhas_applyLinkHeaders _ _ _ _ ha)
  have hsrh2 := setRequestHeaders_auth env (applyLinkHeaders (mkReq "POST" vl.href) vl.header)
    (hhas_applyLinkHeaders _ _ _ _ hb)
  have hmain : callExternalPut env fh fn (some lm)
      = (none,
         [Event.sent { withUA (applyLinkHeaders (mkReq "PUT" ul.href) ul.header) with
            contentLength := sz },
          Event.sent { withUA (applyLinkHeaders (mkReq "POST" vl.href) vl.header) with
            body := some (jsonOidSize (filepathBase fh) sz) }]) := by
    simp only [callExternalPut, hu, hst, hu1, hsrh1, hh1, hv, hv1, hsrh2, hh2,
      saveCredentials, if_true]
    rfl
  refine ⟨hmain, fun cf => ?_⟩
  have hsrh1' := setRequestHeaders_auth { env with credsFor := cf }
    (applyLinkHeaders (mkReq "PUT" ul.href) ul.header)
    (hhas_applyLinkHeaders _ _ _ _ ha)
  have hsrh2' := setRequestHeaders_auth { env with credsFor := cf }
    (applyLinkHeaders (mkReq "POST" vl.href) vl.header)
    (hhas_applyLinkHeaders _ _ _ _ hb)
  rw [hmain]
  simp only [callExternalPut, hu, hst, hu1, hsrh1', hh1, hv, hv1, hsrh2', hh2,
    saveCredentials, if_true]
  rfl

/-- Witness for C10: both links carry their own `Authorization`; the
trace holds exactly the PUT and verify POST, with no credential
verdict. -/
theorem c10_witness :
    callExternalPut env10 "pp/oid1" "f" (some lm10)
      = (none,
         [Event.sent { withUA (applyLinkHeaders (mkReq "PUT" ul10.href) ul10.header) with
            contentLength := 4 },
          Event.sent { withUA (applyLinkHeaders (mkReq "POST" vl10.href) vl10.header) with
            body := some (jsonOidSize (filepathBase "pp/oid1") 4) }]) :=
  (c10_link_authorization_suppresses_credentials env10 "pp/oid1" "f" lm10 ul10 vl10
    "token1" "token2" 4 (wRes 200) (wRes 200)
    rfl (by decide) rfl (by decide) rfl rfl rfl rfl rfl).1

/-! ## C1: the hypermedia upload sequence -/

theorem applyLinkHeaders_fields (hs : List (String × String)) :
    ∀ r : HttpRequest,
      (applyLinkHeaders r hs).url = r.url
      ∧ (applyLinkHeaders r hs).method = r.method
      ∧ (applyLinkHeaders r hs).body = r.body := by
  induction hs with
  | nil => intro r; exact ⟨rfl, rfl, rfl⟩
  | cons kv t ih =>
    intro r
    exact ih { r with headers := hset r.headers kv.1 kv.2 }

theorem setRequestHeaders_fields {env : Env} {r r' : HttpRequest} {c : Option Creds}
    (h : setRequestHeaders env r = .ok (r', c)) :
    r'.url = r.url ∧ r'.method = r.method ∧ r'.body = r.body := by
  simp only [setRequestHeaders] at h
  by_cases hh : hhas (withUA r).headers "Authorization" = true
  · rw [if_pos hh] at h
    injection h with h2
    have hr : r' = withUA r := (congrArg Prod.fst h2).symm
    subst hr
    exact ⟨rfl, rfl, rfl⟩
  · rw [if_neg hh] at h
    cases hc : env.credsFor (withUA r).url with
    | error e => rw [hc] at h; cases h
    | ok c0 =>
      rw [hc] at h
      injection h with h2
      have hr : r' = { withUA r with
          headers := hset (withUA r).headers "Authorization"
            ("Basic " ++ env.base64 (c0.username ++ ":" ++ c0.password)) } :=
        (congrArg Prod.fst h2).symm
      subst hr
      exact ⟨rfl, rfl, rfl⟩

/-- Reduction of `callPost` on the 202 hypermedia path. -/
theorem callPost_202 {env : Env} {p : String} (f : String) {nreq : HttpRequest}
    {ncreds : Option Creds} {nres : HttpResponse} {sz : Int} {lm : LinkMeta}
    (h1 : request env "POST" "" = .ok (nreq, ncreds))
    (h2 : env.statFile p = some sz)
    (h3 : env.http { nreq with
        body := some (jsonOidSize (filepathBase p) sz),
        headers := hset nreq.headers "Accept" gitMediaMetaType } = .ok nres)
    (h4 : nres.statusCode = 202)
    (h5 : env.decodeLinkMeta nres.body = .ok lm) :
    callPost env p f
      = ((some lm, 202, none),
         Event.sent { nreq with
            body := some (jsonOidSize (filepathBase p) sz),
            headers := hset nreq.headers "Accept" gitMediaMetaType }
          :: saveCredentials ncreds nres.statusCode) := by
  simp only [callPost, h1, h2]
  rw [doRequest_ok_soft ncreds h3 (Or.inl (by omega))]
  simp only [h4, h5]
  rfl

/-- Reduction of `callPost` on a soft (unclassified, non-202) status. -/
theorem callPost_soft {env : Env} {p : String} (f : String) {nreq : HttpRequest}
    {ncreds : Option Creds} {nres : HttpResponse} {sz : Int}
    (h1 : request env "POST" "" = .ok (nreq, ncreds))
    (h2 : env.statFile p = some sz)
    (h3 : env.http { nreq with
        body := some (jsonOidSize (filepathBase p) sz),
        headers := hset nreq.headers "Accept" gitMediaMetaType } = .ok nres)
    (h4 : nres.statusCode < 400 ∨ nres.statusCode = 405)
    (h5 : nres.statusCode ≠ 202) :
    callPost env p f
      = ((none, nres.statusCode, none),
         Event.sent { nreq with
            body := some (jsonOidSize (filepathBase p) sz),
            headers := hset nreq.headers "Accept" gitMediaMetaType }
          :: saveCredentials ncreds nres.statusCode) := by
  simp only [callPost, h1, h2]
  rw [doRequest_ok_soft ncreds h3 h4]
  simp only [if_neg h5]

/-- Reduction of `callExternalPut` on the happy path with both an
`upload` and a `verify` relation. -/
theorem callExternalPut_ok {env : Env} {fh : String} (fn : String) {lm : LinkMeta}
    {ul vl : Link} {sz : Int} {req1 vreq1 : HttpRequest}
    {creds1 vcreds1 : Option Creds} {res1 vres1 : HttpResponse}
    (hu : lm.rel "upload" = some ul)
    (hv : lm.rel "verify" = some vl)
    (hst : env.statFile fh = some sz)
    (hu1 : env.urlOk ul.href = true)
    (hsrh1 : setRequestHeaders env (applyLinkHeaders (mkReq "PUT" ul.href) ul.header)
      = .ok (req1, creds1))
    (hh1 : env.http { req1 with contentLength := sz } = .ok res1)
    (hv1 : env.urlOk vl.href = true)
    (hsrh2 : setRequestHeaders env (applyLinkHeaders (mkReq "POST" vl.href) vl.header)
      = .ok (vreq1, vcreds1))
    (hh2 : env.http { vreq1 with body := some (jsonOidSize (filepathBase fh) sz) }
      = .ok vres1) :
    callExternalPut env fh fn (some lm)
      = (none,
         Event.sent { req1 with contentLength := sz }
          :: (saveCredentials creds1 res1.statusCode
              ++ Event.sent { vreq1 with body := some (jsonOidSize (filepathBase fh) sz) }
                :: saveCredentials vcreds1 vres1.statusCode)) := by
  simp only [callExternalPut, hu, hst, hu1, hsrh1, hh1, hv, hv1, hsrh2, hh2, if_true,
    List.cons_append]

/-- Reduction of the post-negotiation branch at status 202 with no
negotiation error. -/
theorem uploadAfterNegotiation_202 (env : Env) (p f : String) (lm : Option LinkMeta) :
    uploadAfterNegotiation env p f lm 202 none =
      (match (callExternalPut env p f lm).1 with
       | some w =>
         (some (Errorf w.message
           ("Error uploading file " ++ f ++ " (" ++ filepathBase p ++ ")")),
          (callExternalPut env p f lm).2)
       | none => (none, (callExternalPut env p f lm).2)) := by
  simp only [uploadAfterNegotiation]
  rw [if_neg (fun h => Bool.false_ne_true h.1),
    if_neg (by decide : ¬ ((202 : Nat) = 200)),
    if_neg (by decide : ¬ ((202 : Nat) = 405 ∨ (202 : Nat) = 302))]
  rfl

/-- Reduction of the post-negotiation branch at a legacy status (405 or
302) with no negotiation error. -/
theorem uploadAfterNegotiation_legacy (env : Env) (p f : String) (lm : Option LinkMeta)
    (status : Nat) (hs : status = 405 ∨ status = 302) :
    uploadAfterNegotiation env p f lm status none =
      (match (callOptions env p).1.2 with
       | some w => (some w, (callOptions env p).2)
       | none =>
         if (callOptions env p).1.1 ≠ 200 then
           match (callPut env p f).1 with
           | some w =>
             (some (Errorf w.message
               ("Error uploading file " ++ f ++ " (" ++ filepathBase p ++ ")")),
              (callOptions env p).2 ++ (callPut env p f).2)
           | none => (none, (callOptions env p).2 ++ (callPut env p f).2)
         else (none, (callOptions env p).2)) := by
  have h200 : status ≠ 200 := by rcases hs with h | h <;> omega
  simp only [uploadAfterNegotiation]
  rw [if_neg (fun h => Bool.false_ne_true h.1), if_neg h200, if_pos hs]

/-- C1: an upload whose negotiation POST returns 202 with link metadata
holding an `upload` relation (href U) and a `verify` relation (href V)
performs, after the negotiation POST itself, exactly one PUT to U
followed by exactly one POST to V carrying the `{"oid", "size"}` JSON
body, in that order; if the `upload` relation is absent from the decoded
202 link metadata, Upload returns a diagnostic error and the trace shows
no request beyond the negotiation POST — none to any storage backend. -/
theorem c1_hypermedia_upload_sequence :
    (∀ (env : Env) (p f : String) (nreq req1 vreq1 : HttpRequest)
        (ncreds creds1 vcreds1 : Option Creds) (nres res1 vres1 : HttpResponse)
        (sz : Int) (lm : LinkMeta) (ul vl : Link),
      request env "POST" "" = .ok (nreq, ncreds) →
      env.statFile p = some sz →
      env.http { nreq with
          body := some (jsonOidSize (filepathBase p) sz),
          headers := hset nreq.headers "Accept" gitMediaMetaType } = .ok nres →
      nres.statusCode = 202 →
      env.decodeLinkMeta nres.body = .ok lm →
      lm.rel "upload" = some ul →
      lm.rel "verify" = some vl →
      env.urlOk ul.href = true →
      setRequestHeaders env (applyLinkHeaders (mkReq "PUT" ul.href) ul.header)
        = .ok (req1, creds1) →
      env.http { req1 with contentLength := sz } = .ok res1 →
      env.urlOk vl.href = true →
      setRequestHeaders env (applyLinkHeaders (mkReq "POST" vl.href) vl.header)
        = .ok (vreq1, vcreds1) →
      env.http { vreq1 with body := some (jsonOidSize (filepathBase p) sz) } = .ok vres1 →
        (Upload env p f).1 = none
        ∧ sentRequests (Upload env p f).2
          = [{ nreq with
                body := some (jsonOidSize (filepathBase p) sz),
                headers := hset nreq.headers "Accept" gitMediaMetaType },
             { req1 with contentLength := sz },
             { vreq1 with body := some (jsonOidSize (filepathBase p) sz) }]
        ∧ { req1 with contentLength := sz }.method = "PUT"
        ∧ { req1 with contentLength := sz }.url = ul.href
        ∧ { vreq1 with body := some (jsonOidSize (filepathBase p) sz) }.method = "POST"
        ∧ { vreq1 with body := some (jsonOidSize (filepathBase p) sz) }.url = vl.href
        ∧ { vreq1 with body := some (jsonOidSize (filepathBase p) sz) }.body
            = some (jsonOidSize (filepathBase p) sz))
    ∧ (∀ (env : Env) (p f : String) (nreq : HttpRequest) (ncreds : Option Creds)
        (nres : HttpResponse) (sz : Int) (lm : LinkMeta),
      request env "POST" "" = .ok (nreq, ncreds) →
      env.statFile p = some sz →
      env.http { nreq with
          body := some (jsonOidSize (filepathBase p) sz),
          headers := hset nreq.headers "Accept" gitMediaMetaType } = .ok nres →
      nres.statusCode = 202 →
      env.decodeLinkMeta nres.body = .ok lm →
      lm.rel "upload" = none →
        (∃ w, (Upload env p f).1 = some w)
        ∧ sentRequests (Upload env p f).2
          = [{ nreq with
                body := some (jsonOidSize (filepathBase p) sz),
                headers := hset nreq.headers "Accept" gitMediaMetaType }]) := by
  constructor
  · intro env p f nreq req1 vreq1 ncreds creds1 vcreds1 nres res1 vres1 sz lm ul vl
      h1 h2 h3 h4 h5 hu hv hu1 hsrh1 hh1 hv1 hsrh2 hh2
    have hcp := callPost_202 f h1 h2 h3 h4 h5
    have hext := callExternalPut_ok f hu hv h2 hu1 hsrh1 hh1 hv1 hsrh2 hh2
    have hf1 := setRequestHeaders_fields hsrh1
    have ha1 := applyLinkHeaders_fields ul.header (mkReq "PUT" ul.href)
    have hf2 := setRequestHeaders_fields hsrh2
    have ha2 := applyLinkHeaders_fields vl.header (mkReq "POST" vl.href)
    have hU : Upload env p f
        = (none,
           (Event.sent { nreq with
              body := some (jsonOidSize (filepathBase p) sz),
              headers := hset nreq.headers "Accept" gitMediaMetaType }
            :: saveCredentials ncreds nres.statusCode)
           ++ (Event.sent { req1 with contentLength := sz }
              :: (saveCredentials creds1 res1.statusCode
                  ++ Event.sent { vreq1 with body := some (jsonOidSize (filepathBase p) sz) }
                    :: saveCredentials vcreds1 vres1.statusCode))) := by
      simp only [Upload, hcp, uploadAfterNegotiation_202, hext]
    refine ⟨by rw [hU], ?_, ?_, ?_, ?_, ?_, rfl⟩
    · rw [hU]
      simp [sentRequests, sentRequests_append, sentRequests_saveCredentials]
    · exact hf1.2.1.trans ha1.2.1
    · exact hf1.1.trans ha1.1
    · exact hf2.2.1.trans ha2.2.1
    · exact hf2.1.trans ha2.1
  · intro env p f nreq ncreds nres sz lm h1 h2 h3 h4 h5 hu
    have hcp := callPost_202 f h1 h2 h3 h4 h5
    have hext : callExternalPut env p f (some lm)
        = (some (Errorf "No upload link provided" ("Error attempting to PUT " ++ f)), []) := by
      simp only [callExternalPut, hu]
    have hU : Upload env p f
        = (some (Errorf ("Error attempting to PUT " ++ f)
            ("Error uploading file " ++ f ++ " (" ++ filepathBase p ++ ")")),
           (Event.sent { nreq with
              body := some (jsonOidSize (filepathBase p) sz),
              headers := hset nreq.headers "Accept" gitMediaMetaType }
            :: saveCredentials ncreds nres.statusCode) ++ []) := by
      simp only [Upload, hcp, uploadAfterNegotiation_202, hext]
      rfl
    refine ⟨⟨_, by rw [hU]⟩, ?_⟩
    rw [hU]
    simp [sentRequests, sentRequests_append, sentRequests_saveCredentials]

/-- Witness for C1: a concrete 202 negotiation with `upload` and
`verify` links yields the trace POST (negotiation), PUT to the store,
POST to the verifier, in that order, and the upload succeeds. -/
theorem c1_witness :
    (Upload env1 "pp/oid1" "f").1 = none
    ∧ (sentRequests (Upload env1 "pp/oid1" "f").2).map (fun r => (r.method, r.url))
      = [("POST", "https://api/objects/"),
         ("PUT", "https://store/x"),
         ("POST", "https://api/verify")] := by
  have h := c1_hypermedia_upload_sequence.1 env1 "pp/oid1" "f" _ _ _ _ _ _ _ _ _ 4 lm1
    ⟨"https://store/x", []⟩ ⟨"https://api/verify", []⟩
    rfl rfl rfl rfl rfl rfl rfl rfl rfl rfl rfl rfl rfl
  refine ⟨h.1, ?_⟩
  rw [h.2.1]
  decide

/-! ## C5: the legacy OPTIONS + PUT fallback -/

theorem hget_hset_self (h : Header) (k v : String) : hget (hset h k v) k = v := by
  simp only [hget, hset]
  by_cases ha : h.any (fun p => p.1 = k)
  · rw [if_pos ha]
    simp [find?_map_replace _ _ _ ha]
  · rw [if_neg ha]
    simp only [List.find?_append,
      find?_none_of_any_false _ _ (Bool.eq_false_iff.2 ha)]
    simp [List.find?]

theorem hget_hset_other (h : Header) (k v k' : String) (hne : k' ≠ k) :
    hget (hset h k v) k' = hget h k' := by
  simp only [hget, hset]
  by_cases ha : h.any (fun p => p.1 = k)
  · rw [if_pos ha]
    rw [find?_map_replace_other _ _ _ _ hne]
  · rw [if_neg ha]
    rw [List.find?_append]
    have hz : List.find? (fun p => p.1 = k') [(k, v)] = none := by
      simp [List.find?, decide_eq_false (fun he : k = k' => hne he.symm)]
    rw [hz]
    cases List.find? (fun p => p.1 = k') h <;> rfl

theorem request_fields {env : Env} {m oid : String} {req : HttpRequest}
    {c : Option Creds} (h : request env m oid = .ok (req, c)) :
    req.url = env.objectUrl oid ∧ req.method = m ∧ req.body = none := by
  simp only [request] at h
  by_cases hu : env.urlOk (env.objectUrl oid) = true
  · rw [if_pos hu] at h
    have hf := setRequestHeaders_fields h
    exact ⟨hf.1, hf.2.1, hf.2.2⟩
  · rw [if_neg hu] at h
    cases h

theorem handleResponseError_hard (res : HttpResponse) (d : Except String ClientError)
    (h1 : 400 ≤ res.statusCode) (h2 : res.statusCode ≠ 405) :
    ∃ w, handleResponseError res d = some w := by
  simp only [handleResponseError]
  rw [if_neg (by rintro (h | h) <;> omega)]
  exact ⟨_, rfl⟩

theorem callOptions_ok {env : Env} {p : String} {sz : Int} {oreq : HttpRequest}
    {ocreds : Option Creds} {ores : HttpResponse}
    (hst : env.statFile p = some sz)
    (hreq : request env "OPTIONS" (filepathBase p) = .ok (oreq, ocreds))
    (hhttp : env.http oreq = .ok ores)
    (hsoft : ores.statusCode < 400 ∨ ores.statusCode = 405) :
    callOptions env p
      = ((ores.statusCode, none), Event.sent oreq :: saveCredentials ocreds ores.statusCode) := by
  simp only [callOptions, hst, hreq]
  rw [doRequest_ok_soft ocreds hhttp hsoft]

theorem callOptions_hard {env : Env} {p : String} {sz : Int} {oreq : HttpRequest}
    {ocreds : Option Creds} {ores : HttpResponse}
    (hst : env.statFile p = some sz)
    (hreq : request env "OPTIONS" (filepathBase p) = .ok (oreq, ocreds))
    (hhttp : env.http oreq = .ok ores)
    (h1 : 400 ≤ ores.statusCode) (h2 : ores.statusCode ≠ 405) :
    ∃ w, callOptions env p
      = ((0, some w), Event.sent oreq :: saveCredentials ocreds ores.statusCode) := by
  obtain ⟨w, hw⟩ := handleResponseError_hard ores (env.decodeClientError ores.body) h1 h2
  refine ⟨setErrorResponseContext env w ores, ?_⟩
  simp only [callOptions, hst, hreq]
  rw [doRequest_ok ocreds hhttp, hw]
  rfl

theorem callPut_ok {env : Env} {p : String} (f : String) {sz : Int} {preq : HttpRequest}
    {pcreds : Option Creds} {pres : HttpResponse}
    (hst : env.statFile p = some sz)
    (hreq : request env "PUT" (filepathBase p) = .ok (preq, pcreds))
    (hhttp : env.http { preq with
        headers := hset (hset preq.headers "Content-Type" gitMediaType) "Accept" gitMediaMetaType,
        contentLength := sz } = .ok pres) :
    callPut env p f
      = ((handleResponseError pres (env.decodeClientError pres.body)).map
           (fun w => setErrorResponseContext env w pres),
         Event.sent { preq with
            headers := hset (hset preq.headers "Content-Type" gitMediaType) "Accept" gitMediaMetaType,
            contentLength := sz }
          :: saveCredentials pcreds pres.statusCode) := by
  simp only [callPut, hst, hreq]
  rw [doRequest_ok pcreds hhttp]

/-- C5 (amended): an upload whose negotiation returns 405 or 302 issues
exactly one OPTIONS probe; a probe status of 200 means no PUT; a probe
status other than 200 that the classifier does not reject (below 400, or
405) leads to exactly one PUT to the legacy object endpoint with
`Content-Type` the binary media type and `Accept` the metadata media
type; a probe status of 400 or above (other than 405) aborts the upload
with an error and no PUT is sent — the original claim's "for any other
probe status exactly one PUT is sent" fails there. -/
theorem c5_legacy_fallback (env : Env) (p f : String)
    (nreq oreq : HttpRequest) (ncreds ocreds : Option Creds)
    (nres ores : HttpResponse) (sz : Int)
    (h1 : request env "POST" "" = .ok (nreq, ncreds))
    (h2 : env.statFile p = some sz)
    (h3 : env.http { nreq with
        body := some (jsonOidSize (filepathBase p) sz),
        headers := hset nreq.headers "Accept" gitMediaMetaType } = .ok nres)
    (hs : nres.statusCode = 405 ∨ nres.statusCode = 302)
    (h4 : request env "OPTIONS" (filepathBase p) = .ok (oreq, ocreds))
    (h5 : env.http oreq = .ok ores) :
    (ores.statusCode = 200 →
      (Upload env p f).1 = none
      ∧ sentRequests (Upload env p f).2
        = [{ nreq with
              body := some (jsonOidSize (filepathBase p) sz),
              headers := hset nreq.headers "Accept" gitMediaMetaType }, oreq])
    ∧ (∀ (preq : HttpRequest) (pcreds : Option Creds) (pres : HttpResponse),
        (ores.statusCode < 400 ∨ ores.statusCode = 405) → ores.statusCode ≠ 200 →
        request env "PUT" (filepathBase p) = .ok (preq, pcreds) →
        env.http { preq with
            headers := hset (hset preq.headers "Content-Type" gitMediaType) "Accept" gitMediaMetaType,
            contentLength := sz } = .ok pres →
          sentRequests (Upload env p f).2
            = [{ nreq with
                  body := some (jsonOidSize (filepathBase p) sz),
                  headers := hset nreq.headers "Accept" gitMediaMetaType },
               oreq,
               { preq with
                  headers := hset (hset preq.headers "Content-Type" gitMediaType) "Accept" gitMediaMetaType,
                  contentLength := sz }]
          ∧ hget { preq with
                headers := hset (hset preq.headers "Content-Type" gitMediaType) "Accept" gitMediaMetaType,
                contentLength := sz }.headers "Content-Type" = gitMediaType
          ∧ hget { preq with
                headers := hset (hset preq.headers "Content-Type" gitMediaType) "Accept" gitMediaMetaType,
                contentLength := sz }.headers "Accept" = gitMediaMetaType
          ∧ { preq with
                headers := hset (hset preq.headers "Content-Type" gitMediaType) "Accept" gitMediaMetaType,
                contentLength := sz }.method = "PUT"
          ∧ { preq with
                headers := hset (hset preq.headers "Content-Type" gitMediaType) "Accept" gitMediaMetaType,
                contentLength := sz }.url = env.objectUrl (filepathBase p))
    ∧ (400 ≤ ores.statusCode → ores.statusCode ≠ 405 →
        (∃ w, (Upload env p f).1 = some w)
        ∧ sentRequests (Upload env p f).2
          = [{ nreq with
                body := some (jsonOidSize (filepathBase p) sz),
                headers := hset nreq.headers "Accept" gitMediaMetaType }, oreq]) := by
  have hsoftn : nres.statusCode < 400 ∨ nres.statusCode = 405 := by
    rcases hs with h | h
    · exact Or.inr h
    · exact Or.inl (by omega)
  have hn202 : nres.statusCode ≠ 202 := by rcases hs with h | h <;> omega
  have hcp := callPost_soft f h1 h2 h3 hsoftn hn202
  refine ⟨?_, ?_, ?_⟩
  · intro h200
    have hco := callOptions_ok h2 h4 h5 (Or.inl (by omega))
    have hU : Upload env p f
        = (none,
           (Event.sent { nreq with
              body := some (jsonOidSize (filepathBase p) sz),
              headers := hset nreq.headers "Accept" gitMediaMetaType }
            :: saveCredentials ncreds nres.statusCode)
           ++ (Event.sent oreq :: saveCredentials ocreds ores.statusCode)) := by
      simp only [Upload, hcp, uploadAfterNegotiation_legacy env p f none nres.statusCode hs,
        hco]
      rw [if_neg (fun hne => hne h200)]
    rw [hU]
    exact ⟨rfl, by simp [sentRequests, sentRequests_append, sentRequests_saveCredentials]⟩
  · intro preq pcreds pres hsofto h200 hpr hph
    have hco := callOptions_ok h2 h4 h5 hsofto
    have hcput := callPut_ok f h2 hpr hph
    have hfld := request_fields hpr
    have hT : (Upload env p f).2
        = (Event.sent { nreq with
              body := some (jsonOidSize (filepathBase p) sz),
              headers := hset nreq.headers "Accept" gitMediaMetaType }
            :: saveCredentials ncreds nres.statusCode)
          ++ ((Event.sent oreq :: saveCredentials ocreds ores.statusCode)
              ++ (Event.sent { preq with
                    headers := hset (hset preq.headers "Content-Type" gitMediaType) "Accept" gitMediaMetaType,
                    contentLength := sz }
                  :: saveCredentials pcreds pres.statusCode)) := by
      simp only [Upload, hcp, uploadAfterNegotiation_legacy env p f none nres.statusCode hs,
        hco, hcput]
      rw [if_pos h200]
      cases handleResponseError pres (env.decodeClientError pres.body) <;> rfl
    refine ⟨?_, ?_, ?_, ?_, ?_⟩
    · rw [hT]
      simp [sentRequests, sentRequests_append, sentRequests_saveCredentials]
    · rw [hget_hset_other _ _ _ _ (by decide), hget_hset_self]
    · exact hget_hset_self _ _ _
    · exact hfld.2.1
    · exact hfld.1
  · intro hhard1 hhard2
    obtain ⟨w, hco⟩ := callOptions_hard h2 h4 h5 hhard1 hhard2
    have hU : Upload env p f
        = (some w,
           (Event.sent { nreq with
              body := some (jsonOidSize (filepathBase p) sz),
              headers := hset nreq.headers "Accept" gitMediaMetaType }
            :: saveCredentials ncreds nres.statusCode)
           ++ (Event.sent oreq :: saveCredentials ocreds ores.statusCode)) := by
      simp only [Upload, hcp, uploadAfterNegotiation_legacy env p f none nres.statusCode hs,
        hco]
    rw [hU]
    exact ⟨⟨w, rfl⟩, by simp [sentRequests, sentRequests_append, sentRequests_saveCredentials]⟩

/-- Witness for C5 (amended): negotiation 405, probe 301 (≠ 200, not
classified as an error): the trace is POST, OPTIONS, then exactly one
PUT to the legacy object endpoint. -/
theorem c5_witness :
    (sentRequests (Upload env5b "pp/oid1" "f").2).map (fun r => (r.method, r.url))
      = [("POST", "https://api/objects/"),
         ("OPTIONS", "https://api/objects/oid1"),
         ("PUT", "https://api/objects/oid1")] := by
  have h := (c5_legacy_fallback env5b "pp/oid1" "f" _ _ _ _ _ _ 4
      rfl rfl rfl (Or.inl rfl) rfl rfl).2.1 _ _ _
    (Or.inl (by decide)) (by decide) rfl rfl
  rw [h.1]
  decide

/-- Counterexample for C5 as stated: negotiation 405 and an OPTIONS
probe answering 500 — a probe status "other than 200" — make Upload
abort with an error and NO PUT is ever sent, contradicting "for any
other probe status exactly one PUT of the file is sent". -/
theorem c5_counterexample :
    ((Upload env5 "pp/oid1" "f").1.isSome = true)
    ∧ (sentRequests (Upload env5 "pp/oid1" "f").2).map (fun r => r.method)
      = ["POST", "OPTIONS"] := by
  decide

/-! ## C6: what aborts an upload sub-request -/

theorem doRequest_err {env : Env} {req : HttpRequest} {res : HttpResponse}
    (creds : Option Creds) (m : String) (h : env.http req = .err m res)
    (hn : res.statusCode ≠ 302) :
    doRequest env req creds
      = ((res, some (setErrorResponseContext env
            (Errorf m ("Error sending HTTP request to " ++ req.url)) res)),
         [Event.sent req]) := by
  simp only [doRequest, h]
  rw [if_neg hn]

theorem doRequest_err_302 {env : Env} {req : HttpRequest} {res : HttpResponse}
    (creds : Option Creds) (m : String) (h : env.http req = .err m res)
    (h302 : res.statusCode = 302) :
    doRequest env req creds = ((res, none), [Event.sent req]) := by
  simp only [doRequest, h]
  rw [if_pos h302]

/-- C6 (amended): a TRANSPORT failure aborts the hypermedia PUT before
the verify POST (conjunct 1) and aborts the verify POST (conjunct 2);
for the LEGACY PUT, which flows through `doRequest`, a transport failure
aborts with the wrapped error unless the transport layer pairs it with a
302-status response, which the pre-release hack swallows — `callPut`
then returns no error (conjuncts 3 and 4).  A response status aborts
only the legacy PUT and only when it is at or above 400 and not 405:
such a status is rejected by the classifier (conjunct 5), while any
status below 400, or 405, yields no error (conjunct 6); `Upload` returns
any `callPut` error wrapped, by definition of its legacy branch.  The
hypermedia PUT and verify POST never inspect the response status, so
with working transport the hypermedia path succeeds whatever statuses
come back (conjunct 7) — the original claim's "non-2xx response status
aborts" is false there. -/
theorem c6_abort_conditions :
    (∀ (env : Env) (fh fn : String) (lm : LinkMeta) (ul : Link) (sz : Int)
        (req1 : HttpRequest) (creds1 : Option Creds) (m : String) (res1 : HttpResponse),
      lm.rel "upload" = some ul →
      env.statFile fh = some sz →
      env.urlOk ul.href = true →
      setRequestHeaders env (applyLinkHeaders (mkReq "PUT" ul.href) ul.header)
        = .ok (req1, creds1) →
      env.http { req1 with contentLength := sz } = .err m res1 →
        callExternalPut env fh fn (some lm)
          = (some (Errorf m ("Error attempting to PUT " ++ fn)),
             [Event.sent { req1 with contentLength := sz }]))
    ∧ (∀ (env : Env) (fh fn : String) (lm : LinkMeta) (ul vl : Link) (sz : Int)
        (req1 vreq1 : HttpRequest) (creds1 vcreds1 : Option Creds)
        (res1 : HttpResponse) (m2 : String) (vres : HttpResponse),
      lm.rel "upload" = some ul →
      lm.rel "verify" = some vl →
      env.statFile fh = some sz →
      env.urlOk ul.href = true →
      setRequestHeaders env (applyLinkHeaders (mkReq "PUT" ul.href) ul.header)
        = .ok (req1, creds1) →
      env.http { req1 with contentLength := sz } = .ok res1 →
      env.urlOk vl.href = true →
      setRequestHeaders env (applyLinkHeaders (mkReq "POST" vl.href) vl.header)
        = .ok (vreq1, vcreds1) →
      env.http { vreq1 with body := some (jsonOidSize (filepathBase fh) sz) }
        = .err m2 vres →
        callExternalPut env fh fn (some lm)
          = (some (Errorf m2 ("Error attempting to verify " ++ fn)),
             Event.sent { req1 with contentLength := sz }
              :: (saveCredentials creds1 res1.statusCode
                  ++ [Event.sent { vreq1 with
                        body := some (jsonOidSize (filepathBase fh) sz) }])))
    ∧ (∀ (env : Env) (p f : String) (sz : Int) (preq : HttpRequest)
        (pcreds : Option Creds) (m : String) (pres : HttpResponse),
      env.statFile p = some sz →
      request env "PUT" (filepathBase p) = .ok (preq, pcreds) →
      env.http { preq with
          headers := hset (hset preq.headers "Content-Type" gitMediaType) "Accept" gitMediaMetaType,
          contentLength := sz } = .err m pres →
      pres.statusCode ≠ 302 →
        ∃ w, callPut env p f
          = (some w,
             [Event.sent { preq with
                headers := hset (hset preq.headers "Content-Type" gitMediaType) "Accept" gitMediaMetaType,
                contentLength := sz }]))
    ∧ (∀ (env : Env) (p f : String) (sz : Int) (preq : HttpRequest)
        (pcreds : Option Creds) (m : String) (pres : HttpResponse),
      env.statFile p = some sz →
      request env "PUT" (filepathBase p) = .ok (preq, pcreds) →
      env.http { preq with
          headers := hset (hset preq.headers "Content-Type" gitMediaType) "Accept" gitMediaMetaType,
          contentLength := sz } = .err m pres →
      pres.statusCode = 302 →
        callPut env p f
          = (none,
             [Event.sent { preq with
                headers := hset (hset preq.headers "Content-Type" gitMediaType) "Accept" gitMediaMetaType,
                contentLength := sz }]))
    ∧ (∀ (env : Env) (p f : String) (sz : Int) (preq : HttpRequest)
        (pcreds : Option Creds) (pres : HttpResponse),
      env.statFile p = some sz →
      request env "PUT" (filepathBase p) = .ok (preq, pcreds) →
      env.http { preq with
          headers := hset (hset preq.headers "Content-Type" gitMediaType) "Accept" gitMediaMetaType,
          contentLength := sz } = .ok pres →
      400 ≤ pres.statusCode → pres.statusCode ≠ 405 →
        ∃ w, callPut env p f
          = (some w,
             Event.sent { preq with
                headers := hset (hset preq.headers "Content-Type" gitMediaType) "Accept" gitMediaMetaType,
                contentLength := sz }
              :: saveCredentials pcreds pres.statusCode))
    ∧ (∀ (env : Env) (p f : String) (sz : Int) (preq : HttpRequest)
        (pcreds : Option Creds) (pres : HttpResponse),
      env.statFile p = some sz →
      request env "PUT" (filepathBase p) = .ok (preq, pcreds) →
      env.http { preq with
          headers := hset (hset preq.headers "Content-Type" gitMediaType) "Accept" gitMediaMetaType,
          contentLength := sz } = .ok pres →
      (pres.statusCode < 400 ∨ pres.statusCode = 405) →
        callPut env p f
          = (none,
             Event.sent { preq with
                headers := hset (hset preq.headers "Content-Type" gitMediaType) "Accept" gitMediaMetaType,
                contentLength := sz }
              :: saveCredentials pcreds pres.statusCode))
    ∧ (∀ (env : Env) (fh fn : String) (lm : LinkMeta) (ul vl : Link) (sz : Int)
        (req1 vreq1 : HttpRequest) (creds1 vcreds1 : Option Creds)
        (res1 vres1 : HttpResponse),
      lm.rel "upload" = some ul →
      lm.rel "verify" = some vl →
      env.statFile fh = some sz →
      env.urlOk ul.href = true →
      setRequestHeaders env (applyLinkHeaders (mkReq "PUT" ul.href) ul.header)
        = .ok (req1, creds1) →
      env.http { req1 with contentLength := sz } = .ok res1 →
      env.urlOk vl.href = true →
      setRequestHeaders env (applyLinkHeaders (mkReq "POST" vl.href) vl.header)
        = .ok (vreq1, vcreds1) →
      env.http { vreq1 with body := some (jsonOidSize (filepathBase fh) sz) }
        = .ok vres1 →
        (callExternalPut env fh fn (some lm)).1 = none) := by
  refine ⟨?_, ?_, ?_, ?_, ?_, ?_, ?_⟩
  · intro env fh fn lm ul sz req1 creds1 m res1 hu hst hu1 hsrh1 hh1
    simp only [callExternalPut, hu, hst, hu1, hsrh1, hh1, if_true]
  · intro env fh fn lm ul vl sz req1 vreq1 creds1 vcreds1 res1 m2 vres
      hu hv hst hu1 hsrh1 hh1 hv1 hsrh2 hh2
    simp only [callExternalPut, hu, hst, hu1, hsrh1, hh1, hv, hv1, hsrh2, hh2, if_true,
      List.cons_append]
  · intro env p f sz preq pcreds m pres hst hpr hph hn
    refine ⟨setErrorResponseContext env
      (Errorf m ("Error sending HTTP request to " ++ preq.url)) pres, ?_⟩
    simp only [callPut, hst, hpr]
    rw [doRequest_err pcreds m hph hn]
  · intro env p f sz preq pcreds m pres hst hpr hph h302
    simp only [callPut, hst, hpr]
    rw [doRequest_err_302 pcreds m hph h302]
  · intro env p f sz preq pcreds pres hst hpr hph h1 h2
    obtain ⟨w, hw⟩ := handleResponseError_hard pres (env.decodeClientError pres.body) h1 h2
    refine ⟨setErrorResponseContext env w pres, ?_⟩
    rw [callPut_ok f hst hpr hph, hw]
    rfl
  · intro env p f sz preq pcreds pres hst hpr hph hsoft
    simp only [callPut, hst, hpr]
    rw [doRequest_ok_soft pcreds hph hsoft]
  · intro env fh fn lm ul vl sz req1 vreq1 creds1 vcreds1 res1 vres1
      hu hv hst hu1 hsrh1 hh1 hv1 hsrh2 hh2
    rw [callExternalPut_ok fn hu hv hst hu1 hsrh1 hh1 hv1 hsrh2 hh2]

/-- Counterexample for C6 as stated: the hypermedia PUT to
`https://store/x` receives status 500 — a non-2xx response — yet the
upload does NOT abort: the verify POST is still issued afterwards and
Upload returns success, contradicting "a non-2xx response status causes
the whole upload to abort with the corresponding DiagnosticError and no
further sub-request is issued". -/
theorem c6_counterexample :
    (Upload env6 "pp/oid1" "f").1 = none
    ∧ (sentRequests (Upload env6 "pp/oid1" "f").2).map (fun r => (r.method, r.url))
      = [("POST", "https://api/objects/"),
         ("PUT", "https://store/x"),
         ("POST", "https://api/verify")]
    ∧ (∀ q ∈ sentRequests (Upload env6 "pp/oid1" "f").2,
        q.url = "https://store/x" → env6.http q = .ok (wRes 500)) := by
  decide

/-- Witness for C6 (amended): a transport failure on the hypermedia PUT
aborts before the verify POST — the trace holds only the PUT. -/
theorem c6_witness :
    (callExternalPut env6b "pp/oid1" "f" (some lm1)).1
      = some (Errorf "connection refused" "Error attempting to PUT f")
    ∧ (sentRequests (callExternalPut env6b "pp/oid1" "f" (some lm1)).2).map
        (fun r => (r.method, r.url))
      = [("PUT", "https://store/x")] := by
  have h := c6_abort_conditions.1 env6b "pp/oid1" "f" lm1 ⟨"https://store/x", []⟩ 4
    _ _ "connection refused" (wRes 0) rfl rfl rfl rfl rfl
  rw [h]
  decide

end Hawser
